import Mathlib

set_option maxHeartbeats 1000000

namespace SicGateway

/-! ## Character utilities shared by the embedded modules -/

/-- ASCII whitespace as used by the JS regex class and by trim on the
inputs appearing here (space, tab, CR, LF). -/
def isJsSpace (c : Char) : Bool :=
  c = ' ' || c = '\t' || c = '\r' || c = '\n'

/-- Leading- and trailing-whitespace removal, modelling String.prototype.trim
on the ASCII inputs used by the gateway. -/
def trimChars (s : List Char) : List Char :=
  (((s.dropWhile isJsSpace).reverse).dropWhile isJsSpace).reverse

/-- Everything before the first comma: ips.split(',')[0]. -/
def takeUntilComma (s : List Char) : List Char :=
  s.takeWhile (fun c => c ≠ ',')

/-! ## Configuration (src/src/config.ts)

The Config interface declares `trustProxy` ("Trust X-Forwarded-For header for
client IP (enable only behind a reverse proxy)") with default `false`; only the
fields the claims touch are carried. -/

structure Config where
  maxClients : Nat
  maxConnectionsPerIp : Nat
  trustProxy : Bool

/-- Embeds DEFAULT_CONFIG (config.ts lines 57–66). -/
def DEFAULT_CONFIG : Config :=
  { maxClients := 1000, maxConnectionsPerIp := 10, trustProxy := false }

/-! ## Gateway (src/src/gateway.ts, first snapshot) -/

/-- The request headers consulted by Gateway.getClientIp. -/
structure RequestHeaders where
  xForwardedFor : Option (List Char)
  xRealIp : Option (List Char)
  remoteAddress : Option (List Char)

/-- Embeds Gateway.getClientIp (gateway.ts lines 92–105): the first
X-Forwarded-For address when the header is present, else X-Real-IP, else the
transport peer address, else 127.0.0.1. The configuration (and in particular
trustProxy) is never consulted. -/
def getClientIp (h : RequestHeaders) : List Char :=
  match h.xForwardedFor with
  | some fwd => trimChars (takeUntilComma fwd)
  | none =>
    match h.xRealIp with
    | some r => r
    | none => h.remoteAddress.getD (("127.0.0.1").toList)

/-- Embeds the client-IP resolution inlined in Gateway.handleWebSocketUpgrade
(gateway.ts lines 287–293, second snapshot): again X-Forwarded-For is used
unconditionally when present. -/
def resolveClientIp (xff : Option (List Char)) (remote : Option (List Char)) : List Char :=
  trimChars ((xff.map takeUntilComma).getD (remote.getD (("127.0.0.1").toList)))

/-- Wildcard matcher modelling the compiled anchored RegExp
new RegExp('^' + allowed.replace(/\*\/g, '.*') + '$'): a '*' in the entry
matches any character sequence and a '.' matches any single character; other
characters match literally (no other regex metacharacters occur in origin
entries). -/
def originPatternMatch : List Char → List Char → Bool
  | [], [] => true
  | [], _ :: _ => false
  | '*' :: ps, s =>
    originPatternMatch ps s ||
      (match s with
       | [] => false
       | _ :: s2 => originPatternMatch ('*' :: ps) s2)
  | '.' :: ps, _ :: s => originPatternMatch ps s
  | p :: ps, c :: s => (p = c) && originPatternMatch ps s
  | _ :: _, [] => false
termination_by p s => (p.length, s.length)

/-- Embeds Gateway.isOriginAllowed (gateway.ts lines 76–90). -/
def isOriginAllowed (origin : List Char) (allowedOrigins : List (List Char)) : Bool :=
  if allowedOrigins.isEmpty then true
  else allowedOrigins.any (fun allowed =>
    if allowed.contains '*' then originPatternMatch allowed origin
    else allowed == origin)

/-- Embeds the origin step of Gateway.handleUpgrade (gateway.ts lines 47–53):
the request is rejected with 403 exactly when an Origin header is present and
isOriginAllowed returns false; a request with no Origin header is never
rejected by this step. -/
def originRejected (origin : Option (List Char)) (allowedOrigins : List (List Char)) : Bool :=
  match origin with
  | some o => !isOriginAllowed o allowedOrigins
  | none => false

/-! ## Encoding bridge (src/src/encoding.ts)

Bytes are Nat values below 256; decoded text is a list of Unicode code
points. The external iconv-lite registry is modelled for the single codec the
claims exercise: latin1 (ISO-8859-1, byte value = code point, unmappable code
points encoded as the default single-byte char 0x3F); every other name is
unknown to the model, making the iconv call fail, which the source catches. -/

/-- ASCII lowercase of one character, as toLowerCase acts on encoding names. -/
def lowerChar (c : Char) : Char :=
  if 'A' ≤ c && c ≤ 'Z' then Char.ofNat (c.toNat + 32) else c

/-- Lowercased encoding name. -/
def lowerName (s : List Char) : List Char := s.map lowerChar

/-- Checks sourceEncoding.toLowerCase() against utf8 and utf-8. -/
def isUtf8Name (name : List Char) : Bool :=
  lowerName name == ("utf8").toList || lowerName name == ("utf-8").toList

/-- Whether a byte is a UTF-8 continuation byte (0x80–0xBF). -/
def isUtf8Cont (b : Nat) : Bool := 128 ≤ b && b < 192

/-- Decodes one UTF-8 code point: given a lead byte and the remaining bytes,
returns the code point (U+FFFD on malformed input) and how many further bytes
were consumed. -/
def utf8Step (b : Nat) (rest : List Nat) : Nat × Nat :=
  if b < 128 then (b, 0)
  else if b < 192 then (65533, 0)
  else if b < 224 then
    match rest with
    | b1 :: _ =>
      if isUtf8Cont b1 then
        let cp := (b - 192) * 64 + (b1 - 128)
        (if cp < 128 then 65533 else cp, 1)
      else (65533, 0)
    | [] => (65533, 0)
  else if b < 240 then
    match rest with
    | b1 :: b2 :: _ =>
      if isUtf8Cont b1 && isUtf8Cont b2 then
        let cp := (b - 224) * 4096 + (b1 - 128) * 64 + (b2 - 128)
        (if cp < 2048 || (55296 ≤ cp && cp ≤ 57343) then 65533 else cp, 2)
      else (65533, 0)
    | _ => (65533, 0)
  else if b < 245 then
    match rest with
    | b1 :: b2 :: b3 :: _ =>
      if isUtf8Cont b1 && isUtf8Cont b2 && isUtf8Cont b3 then
        let cp := (b - 240) * 262144 + (b1 - 128) * 4096 + (b2 - 128) * 64 + (b3 - 128)
        (if cp < 65536 || 1114111 < cp then 65533 else cp, 3)
      else (65533, 0)
    | _ => (65533, 0)
  else (65533, 0)

/-- Fuel-indexed UTF-8 decoding loop; the fuel is an upper bound on the number
of code points and is supplied as the byte count by utf8DecodeBytes. -/
def utf8DecodeAux : Nat → List Nat → List Nat
  | _, [] => []
  | 0, _ :: _ => []
  | fuel + 1, b :: rest =>
    let s := utf8Step b rest
    s.1 :: utf8DecodeAux fuel (rest.drop s.2)

/-- Total UTF-8 decoding of a byte list to code points, malformed sequences
yielding U+FFFD, modelling buffer.toString('utf8'). -/
def utf8DecodeBytes (l : List Nat) : List Nat :=
  utf8DecodeAux l.length l

/-- UTF-8 encoding of one code point. -/
def utf8EncodeChar (cp : Nat) : List Nat :=
  if cp < 128 then [cp]
  else if cp < 2048 then [192 + cp / 64, 128 + cp % 64]
  else if cp < 65536 then [224 + cp / 4096, 128 + (cp / 64) % 64, 128 + cp % 64]
  else [240 + cp / 262144, 128 + (cp / 4096) % 64, 128 + (cp / 64) % 64, 128 + cp % 64]

/-- UTF-8 encoding of a code-point list, modelling Buffer.from(text, 'utf8'). -/
def utf8EncodeBytes (text : List Nat) : List Nat :=
  (text.map utf8EncodeChar).flatten

/-- Model of iconv.decode: only the latin1 codec is known here (identity on
bytes, since ISO-8859-1 code points equal byte values); any other name makes
iconv throw, modelled as none. -/
def iconvDecode (name : List Char) (bytes : List Nat) : Option (List Nat) :=
  if lowerName name == ("latin1").toList then some bytes else none

/-- Model of iconv.encode, mirroring iconvDecode; code points above 0xFF fall
back to iconv's default single-byte character 0x3F. -/
def iconvEncode (name : List Char) (text : List Nat) : Option (List Nat) :=
  if lowerName name == ("latin1").toList then
    some (text.map (fun cp => if cp < 256 then cp else 63))
  else none

/-- Embeds toUtf8 (encoding.ts lines 23–33): UTF-8 fast path on a utf8 name,
otherwise the iconv decode with fallback to UTF-8 decoding of the same bytes
when iconv fails. -/
def toUtf8 (buffer : List Nat) (sourceEncoding : List Char) : List Nat :=
  if isUtf8Name sourceEncoding then utf8DecodeBytes buffer
  else
    match iconvDecode sourceEncoding buffer with
    | some s => s
    | none => utf8DecodeBytes buffer

/-- Embeds fromUtf8 (encoding.ts lines 35–45), the mirror of toUtf8. -/
def fromUtf8 (text : List Nat) (targetEncoding : List Char) : List Nat :=
  if isUtf8Name targetEncoding then utf8EncodeBytes text
  else
    match iconvEncode targetEncoding text with
    | some b => b
    | none => utf8EncodeBytes text

/-! ## Upstream IRC client (src/src/irc-client.ts, current snapshot) -/

/-- Splits a byte stream at each CRLF (13, 10) pair, scanning left to right:
returns the complete lines (without their terminators) and the unterminated
remainder, modelling the indexOf/subarray loop of handleIncomingData. -/
def splitCRLF : List Nat → List (List Nat) × List Nat
  | [] => ([], [])
  | [b] => ([], [b])
  | b1 :: b2 :: rest =>
    if b1 = 13 ∧ b2 = 10 then
      let r := splitCRLF rest
      ([] :: r.1, r.2)
    else
      let r := splitCRLF (b2 :: rest)
      match r.1 with
      | [] => ([], b1 :: r.2)
      | l :: ls => ((b1 :: l) :: ls, r.2)

/-- Embeds IrcClient.handleIncomingData (irc-client.ts lines 550–569): the
chunk is appended to the receive buffer and every complete CRLF-terminated
line is extracted; whatever remains stays buffered. The source contains no
size cap and no destroy path, so the result is only the new buffer and the
extracted lines. -/
def handleIncomingData (buffer data : List Nat) : List Nat × List (List Nat) :=
  let r := splitCRLF (buffer ++ data)
  (r.2, r.1)

/-- Matcher for the part of RPL_WELCOME_PATTERN after the optional tag part:
a ':', then one or more characters outside whitespace/'!'/'@', then the
literal " 001 ". Because that character class excludes whitespace and the
next literal is a space, the regex backtracking collapses to this
deterministic test. -/
def welcomeCore (cs : List Char) : Bool :=
  match cs with
  | ':' :: rest =>
    let src := rest.takeWhile (fun c => !(isJsSpace c || c = '!' || c = '@'))
    (!src.isEmpty) &&
      (match rest.drop src.length with
       | ' ' :: '0' :: '0' :: '1' :: ' ' :: _ => true
       | _ => false)
  | _ => false

/-- Embeds RPL_WELCOME_PATTERN (irc-client.ts line 313), the anchored regex
that optionally accepts an IRCv3 tag block (an '@', one or more
non-whitespace characters, one space) before the welcomeCore test. -/
def rplWelcomeMatch (cs : List Char) : Bool :=
  match cs with
  | '@' :: rest =>
    let tag := rest.takeWhile (fun c => !isJsSpace c)
    (!tag.isEmpty) &&
      (match rest.drop tag.length with
       | ' ' :: rest2 => welcomeCore rest2
       | _ => false)
  | _ => welcomeCore cs

/-- Observable actions of handleIrcLine. -/
inductive IrcEv where
  | raw (line : List Char) (fromServer : Bool)
  | pong (payload : List Char)
  | connected
  deriving DecidableEq

/-- True exactly on the connected event. -/
def isConnectedEv : IrcEv → Bool
  | .connected => true
  | _ => false

/-- Embeds IrcClient.handleIrcLine (irc-client.ts lines 574–590): every line
is emitted raw; a line starting with "PING " is answered with PONG; otherwise
a line matching RPL_WELCOME_PATTERN emits connected. The snapshot keeps no
registered flag, so the test runs on every line. -/
def handleIrcLine (line : List Char) : List IrcEv :=
  if (("PING ").toList).isPrefixOf line then
    [.raw line true, .pong (line.drop 5)]
  else if rplWelcomeMatch line then
    [.raw line true, .connected]
  else
    [.raw line true]

/-- Number of connected emissions over a sequence of decoded lines. -/
def connectedEmissions (lines : List (List Char)) : Nat :=
  ((lines.map handleIrcLine).flatten).countP isConnectedEv

/-! ## WEBIRC builder (src/src/webirc.ts) and the registration sequence -/

/-- Embeds stripCRLF (irc-client.ts lines 290–291): removes every CR and LF. -/
def stripCRLF (s : List Char) : List Char :=
  s.filter (fun c => !(c = '\r' || c = '\n'))

/-- Caller-supplied WEBIRC fields (types.ts WebircParams). -/
structure WebircParams where
  password : List Char
  gateway : List Char
  hostname : List Char
  ip : List Char

/-- Embeds buildWebircCommand (webirc.ts lines 4–7): plain interpolation of
the four fields into the WEBIRC line, with no stripping of any kind. -/
def buildWebircCommand (params : WebircParams) : List Char :=
  (("WEBIRC ").toList) ++ params.password ++ [' '] ++ params.gateway ++ [' ']
    ++ params.hostname ++ [' '] ++ params.ip

/-- The caller-supplied connection fields that end up inside registration
protocol lines (IrcConnectionOptions). -/
structure IrcConnectionOptions where
  nick : List Char
  username : Option (List Char)
  realname : Option (List Char)
  password : Option (List Char)
  webirc : Option WebircParams

/-- Embeds the registration sequence of handleSocketConnected (irc-client.ts
lines 497–529): WEBIRC (if configured), PASS (if a password was supplied),
CAP LS 302, NICK, USER, in this order, with stripCRLF applied to every
caller-supplied field. -/
def registrationLines (o : IrcConnectionOptions) : List (List Char) :=
  (match o.webirc with
   | some w =>
     [(("WEBIRC ").toList) ++ stripCRLF w.password ++ [' '] ++ stripCRLF w.gateway
        ++ [' '] ++ stripCRLF w.hostname ++ [' '] ++ stripCRLF w.ip]
   | none => []) ++
  (match o.password with
   | some pw => [(("PASS ").toList) ++ stripCRLF pw]
   | none => []) ++
  [(("CAP LS 302").toList),
   (("NICK ").toList) ++ stripCRLF o.nick,
   (("USER ").toList) ++ stripCRLF (o.username.getD o.nick)
     ++ ((" 0 * :").toList) ++ stripCRLF (o.realname.getD o.nick)]

/-- A line free of carriage returns and line feeds. -/
def noCRLF (s : List Char) : Bool :=
  s.all (fun c => !(c = '\r' || c = '\n'))

/-! ## ClientConnection (src/unnamed/part_002) -/

/-- The rate-limit fields of the limits configuration (types.ts
GatewayConfig.limits). -/
structure RateLimits where
  messageRateLimit : Nat
  messageRatePeriod : Nat

/-- The per-session sliding-window counter state. -/
structure RateState where
  messageCount : Nat
  messageWindowStart : Nat
  deriving DecidableEq

/-- Embeds ClientConnection.checkRateLimit (part_002 lines 62–73): reset the
counter and window start when the window has elapsed, then always increment;
the message passes when the new count is within the limit. Timestamps are
naturals (Date.now() is monotone), and truncated subtraction agrees with the
JS comparison since a negative difference is never greater than the period. -/
def checkRateLimit (cfg : RateLimits) (rs : RateState) (now : Nat) : RateState × Bool :=
  let rs1 :=
    if now - rs.messageWindowStart > cfg.messageRatePeriod then
      { messageCount := 0, messageWindowStart := now }
    else rs
  let rs2 : RateState := { rs1 with messageCount := rs1.messageCount + 1 }
  (rs2, decide (rs2.messageCount ≤ cfg.messageRateLimit))

/-- The closed command variants recognized by handleCommand (types.ts
ClientCommand), plus a variant for unrecognized kinds, which fall through
the switch. -/
inductive ClientCommand where
  | connect (host : List Char) (port : Nat) (nick : List Char)
  | disconnect (reason : Option (List Char))
  | raw (line : List Char)
  | encoding (name : List Char)
  | unrecognized
  deriving DecidableEq

/-- An inbound WebSocket message as seen after decryptMessage (the identity
JSON parse when encryption is disabled): either it fails to parse (the catch
branch logs and ignores) or it is a parsed envelope with an event tag and a
command payload. -/
inductive InboundMessage where
  | malformed
  | envelope (event : List Char) (cmd : ClientCommand)
  deriving DecidableEq

/-- Observable outbound effects of onMessage. -/
inductive SessionEffect where
  | gatewayError (msg : List Char)
  | dispatched (cmd : ClientCommand)
  deriving DecidableEq

/-- True exactly on a dispatched effect. -/
def isDispatched : SessionEffect → Bool
  | .dispatched _ => true
  | _ => false

/-- The envelope tag accepted by onMessage. -/
def sicClientEvent : List Char := ("sic-client-event").toList

/-- The gateway-error text sent on a rate-limit violation. -/
def rateLimitMsg : List Char := ("Rate limit exceeded").toList

/-- Session state relevant to message intake. -/
structure ConnState where
  rate : RateState
  destroyed : Bool
  deriving DecidableEq

/-- Embeds ClientConnection.handleCommand (part_002 lines 75–90): the switch
dispatches each recognized command kind to its handler; an unrecognized kind
does nothing. Reaching a handler is recorded as a dispatched effect. -/
def handleCommand (cmd : ClientCommand) : List SessionEffect :=
  match cmd with
  | .unrecognized => []
  | c => [.dispatched c]

/-- Embeds ClientConnection.onMessage (part_002 lines 41–60): nothing happens
on a destroyed session; otherwise checkRateLimit runs first — before any
decrypt/parse/validation — and on failure the message is dropped with a
gateway error event; otherwise the message is parsed and dispatched only when
it is a well-formed envelope tagged sic-client-event. -/
def onMessage (cfg : RateLimits) (s : ConnState) (m : InboundMessage) (now : Nat) :
    ConnState × List SessionEffect :=
  if s.destroyed then (s, [])
  else
    let r := checkRateLimit cfg s.rate now
    let s2 : ConnState := { s with rate := r.1 }
    if !r.2 then (s2, [.gatewayError rateLimitMsg])
    else
      match m with
      | .malformed => (s2, [])
      | .envelope ev cmd => if ev = sicClientEvent then (s2, handleCommand cmd) else (s2, [])

/-- Runs onMessage over a message sequence arriving at a common timestamp,
concatenating effects. -/
def runMessages (cfg : RateLimits) (s : ConnState) (ms : List InboundMessage) (now : Nat) :
    ConnState × List SessionEffect :=
  match ms with
  | [] => (s, [])
  | m :: rest =>
    let r := onMessage cfg s m now
    let r2 := runMessages cfg r.1 rest now
    (r2.1, r.2 ++ r2.2)

/-! ## SSRF admission check

Modelled from the spec: the blockPrivateHosts admission check of §4.1 — the
gateway variant implementing it is absent from src (only src test files
reference the flag), so the check is taken from the spec's words: when the
SSRF-protection flag is enabled, a connect target whose host is a literal
loopback, private, link-local, or unspecified address, or the literal name
localhost, is rejected with HTTP 403. -/

/-- Numeric value of a decimal digit, none otherwise. -/
def digitVal (c : Char) : Option Nat :=
  if '0' ≤ c && c ≤ '9' then some (c.toNat - 48) else none

/-- Parses a nonempty all-digit octet. -/
def parseOctet (s : List Char) : Option Nat :=
  match s with
  | [] => none
  | _ =>
    s.foldl (fun acc c => acc.bind (fun n => (digitVal c).map (fun d => n * 10 + d))) (some 0)

/-- Splits a hostname at every dot. -/
def splitDots : List Char → List (List Char)
  | [] => [[]]
  | c :: rest =>
    let r := splitDots rest
    if c = '.' then [] :: r
    else
      match r with
      | [] => [[c]]
      | l :: ls => (c :: l) :: ls

/-- Parses a literal dotted-quad IPv4 address. -/
def parseIPv4 (host : List Char) : Option (Nat × Nat × Nat × Nat) :=
  match (splitDots host).map parseOctet with
  | [some a, some b, some c, some d] =>
    if a ≤ 255 ∧ b ≤ 255 ∧ c ≤ 255 ∧ d ≤ 255 then some (a, b, c, d) else none
  | _ => none

/-- Modelled from the spec: whether a connect-target host is the literal name
localhost or a literal IPv4 address in the loopback (127/8), private (10/8,
172.16/12, 192.168/16), link-local (169.254/16), or unspecified (0.0.0.0)
ranges. -/
def isPrivateHost (host : List Char) : Bool :=
  host == ("localhost").toList ||
    (match parseIPv4 host with
     | some (a, b, c, d) =>
       a = 127 || a = 10 || (a = 172 && 16 ≤ b && b ≤ 31) || (a = 192 && b = 168)
         || (a = 169 && b = 254) || (a = 0 && b = 0 && c = 0 && d = 0)
     | none => false)

/-- Modelled from the spec: the SSRF step of upgrade admission — with the
flag enabled a private target is rejected with HTTP 403 (some 403), anything
else is passed through (none). -/
def ssrfCheck (blockPrivateHosts : Bool) (host : List Char) : Option Nat :=
  if blockPrivateHosts && isPrivateHost host then some 403 else none

/-! ## Gateway session registry and per-IP counters (src/src/gateway.ts,
first snapshot, lines 107–134)

State of the clients registry and the ipConnectionCounts map; the Map is
modelled as a partial function from IPs to stored counts (absent = none). -/

/-- Registry plus counter state. A session is its id paired with its client
IP. -/
structure GState where
  sessions : List (Nat × List Char)
  counts : List Char → Option Nat
  nextId : Nat

/-- The state before any connection. -/
def emptyGState : GState :=
  { sessions := [], counts := fun _ => none, nextId := 0 }

/-- Pointwise update of the counter map (Map.set / Map.delete). -/
def mapSet (m : List Char → Option Nat) (k : List Char) (v : Option Nat) :
    List Char → Option Nat :=
  fun k2 => if k2 = k then v else m k2

/-- The count read for an IP: map.get(ip) ?? 0. -/
def getCount (s : GState) (ip : List Char) : Nat :=
  (s.counts ip).getD 0

/-- Embeds Gateway.checkConnectionLimit (gateway.ts lines 107–111): the
upgrade may proceed while the stored count is below the per-IP maximum. -/
def checkConnectionLimit (cfg : Config) (s : GState) (ip : List Char) : Bool :=
  decide (getCount s ip < cfg.maxConnectionsPerIp)

/-- Embeds Gateway.onConnection (gateway.ts lines 113–118): increment the
IP's counter and insert the new session into the registry. -/
def onConnection (s : GState) (ip : List Char) : GState :=
  { sessions := s.sessions ++ [(s.nextId, ip)],
    counts := mapSet s.counts ip (some (getCount s ip + 1)),
    nextId := s.nextId + 1 }

/-- Embeds the close handler installed by onConnection (gateway.ts lines
120–131): delete the session from the registry, compute
(counts.get(ip) ?? 1) - 1, and delete the entry when the result reaches
zero, otherwise store it. A close for an unknown id changes nothing. -/
def onClose (s : GState) (id : Nat) : GState :=
  match s.sessions.find? (fun p => p.1 == id) with
  | none => s
  | some p =>
    let newCount := (s.counts p.2).getD 1 - 1
    { sessions := s.sessions.filter (fun q => !(q.1 == id)),
      counts :=
        if newCount = 0 then mapSet s.counts p.2 none
        else mapSet s.counts p.2 (some newCount),
      nextId := s.nextId }

/-- Outcome of the admission portion of handleUpgrade. -/
inductive AdmitResult where
  | accepted
  | rejected429
  | rejected503
  deriving DecidableEq

/-- Embeds the cap checks of Gateway.handleUpgrade (gateway.ts lines 55–73)
followed by onConnection on success: per-IP cap first (429), then the global
cap (503), then the session is created. -/
def handleUpgradeAdmission (cfg : Config) (s : GState) (ip : List Char) :
    AdmitResult × GState :=
  if !checkConnectionLimit cfg s ip then (.rejected429, s)
  else if cfg.maxClients ≤ s.sessions.length then (.rejected503, s)
  else (.accepted, onConnection s ip)

/-- The gateway states reachable from the empty state through upgrade
admissions and socket closes. -/
inductive Reachable (cfg : Config) : GState → Prop
  | init : Reachable cfg emptyGState
  | upgrade (ip : List Char) {s : GState} :
      Reachable cfg s → Reachable cfg (handleUpgradeAdmission cfg s ip).2
  | close (id : Nat) {s : GState} :
      Reachable cfg s → Reachable cfg (onClose s id)

/-- Number of live sessions whose client IP is the given one. -/
def sessionsFor (s : GState) (ip : List Char) : Nat :=
  (s.sessions.filter (fun q => q.2 == ip)).length

/-- The combined registry/counter invariant: session ids are bounded by the
id counter and are pairwise distinct, the stored count of every IP equals its
number of live sessions, and no count exceeds the per-IP maximum. -/
def GInv (cfg : Config) (s : GState) : Prop :=
  (∀ p ∈ s.sessions, p.1 < s.nextId) ∧
  (s.sessions.map Prod.fst).Nodup ∧
  (∀ ip, getCount s ip = sessionsFor s ip) ∧
  (∀ ip, getCount s ip ≤ cfg.maxConnectionsPerIp)

/-! ## Concrete fixtures used by closed statements -/

/-- The rate limits exercised by the repository's gateway tests: 50 messages
per 5000 ms window. -/
def cfg50 : RateLimits := { messageRateLimit := 50, messageRatePeriod := 5000 }

/-- A session fresh out of admission: zero counter, window started at 0. -/
def freshConn : ConnState := { rate := { messageCount := 0, messageWindowStart := 0 }, destroyed := false }

/-- A well-formed raw command envelope. -/
def validRawMsg : InboundMessage :=
  .envelope sicClientEvent (.raw (("PRIVMSG #t :hi").toList))


/-! ## Helper lemmas -/

/-- A byte stream containing no carriage return yields no complete line and
stays buffered whole. -/
theorem splitCRLF_no_cr (l : List Nat) (h : ∀ b ∈ l, b ≠ 13) :
    splitCRLF l = ([], l) := by
  induction l with
  | nil => rfl
  | cons b rest ih =>
    cases rest with
    | nil => rfl
    | cons b2 rest2 =>
      have hb : b ≠ 13 := h b (by simp)
      have hr : splitCRLF (b2 :: rest2) = ([], b2 :: rest2) :=
        ih (fun x hx => h x (by simp [hx]))
      simp [splitCRLF, hb, hr]

/-- Stripping leaves no CR or LF behind. -/
theorem noCRLF_stripCRLF (s : List Char) : noCRLF (stripCRLF s) = true := by
  simp only [noCRLF, stripCRLF, List.all_eq_true]
  intro c hc
  exact (List.mem_filter.mp hc).2

/-- noCRLF distributes over concatenation. -/
theorem noCRLF_append (a b : List Char) : noCRLF (a ++ b) = (noCRLF a && noCRLF b) :=
  List.all_append

/-- A line starting with "PING " cannot match the welcome pattern, whose
first character is '@' or ':'. -/
theorem ping_not_welcome (line : List Char)
    (h : (("PING ").toList).isPrefixOf line = true) : rplWelcomeMatch line = false := by
  cases line with
  | nil => simp [List.isPrefixOf] at h
  | cons c rest =>
    have hc : c = 'P' := by
      simp only [String.toList, List.isPrefixOf, Bool.and_eq_true, beq_iff_eq] at h
      exact h.1.symm
    subst hc
    rfl

/-! ## Claim theorems -/

/-- C1: the claim states that the first X-Forwarded-For address is used only
when the trust-proxy flag is enabled, the transport peer address otherwise.
The code contradicts this: DEFAULT_CONFIG.trustProxy is false, yet both IP
resolution paths return the spoofed header value 9.9.9.9 instead of the peer
address 1.2.3.4 — the flag is declared and documented in config.ts but never
consulted. -/
theorem C1_clientIp_trusts_forwarded_header :
    DEFAULT_CONFIG.trustProxy = false ∧
    getClientIp
      { xForwardedFor := some (("9.9.9.9, 8.8.8.8").toList), xRealIp := none,
        remoteAddress := some (("1.2.3.4").toList) } = ("9.9.9.9").toList ∧
    resolveClientIp (some (("9.9.9.9, 8.8.8.8").toList)) (some (("1.2.3.4").toList))
      = ("9.9.9.9").toList ∧
    ("9.9.9.9").toList ≠ ("1.2.3.4").toList := by
  refine ⟨rfl, by decide, by decide, by decide⟩

/-- C2: the claim states that with a non-empty allowlist a request with a
missing Origin header is rejected with 403. The code contradicts this (first
conjunct): handleUpgrade only rejects when a header is present and not
allowed, so a request with no Origin header passes the origin step even
against the allowlist https://a.example. The remaining conjuncts evaluate the
other behaviours the claim describes: a non-matching present header is
rejected, a matching one passes, and the empty allowlist passes everything. -/
theorem C2_missing_origin_not_rejected :
    originRejected none [(("https://a.example").toList)] = false ∧
    originRejected (some (("https://evil.example").toList))
      [(("https://a.example").toList)] = true ∧
    originRejected (some (("https://a.example").toList))
      [(("https://a.example").toList)] = false ∧
    originRejected (some (("https://any.example").toList)) [] = false ∧
    originRejected none [] = false := by
  refine ⟨rfl, by decide, by decide, by decide, rfl⟩

/-- C3: with the SSRF flag enabled every one of the listed private/loopback/
link-local/unspecified literals and the name localhost is rejected with HTTP
403, a public hostname passes, and with the flag disabled the same private
targets pass (the check is modelled from the spec, since only the test files
of the repository reference blockPrivateHosts). -/
theorem C3_blockPrivateHosts_admission :
    ssrfCheck true (("127.0.0.1").toList) = some 403 ∧
    ssrfCheck true (("10.0.0.1").toList) = some 403 ∧
    ssrfCheck true (("172.16.0.1").toList) = some 403 ∧
    ssrfCheck true (("192.168.1.1").toList) = some 403 ∧
    ssrfCheck true (("169.254.0.1").toList) = some 403 ∧
    ssrfCheck true (("0.0.0.0").toList) = some 403 ∧
    ssrfCheck true (("localhost").toList) = some 403 ∧
    ssrfCheck true (("irc.libera.chat").toList) = none ∧
    ssrfCheck false (("127.0.0.1").toList) = none ∧
    ssrfCheck false (("10.0.0.1").toList) = none ∧
    ssrfCheck false (("172.16.0.1").toList) = none ∧
    ssrfCheck false (("192.168.1.1").toList) = none ∧
    ssrfCheck false (("0.0.0.0").toList) = none ∧
    ssrfCheck false (("localhost").toList) = none := by
  refine ⟨by decide, by decide, by decide, by decide, by decide, by decide, by decide,
    by decide, rfl, rfl, rfl, rfl, rfl, rfl⟩

/-- C4: the claim states a 64 KiB hard cap with force-destroy on an
unterminated buffer. The code contradicts this: feeding 65 KiB (66560 bytes)
of data with no CRLF leaves handleIncomingData holding the entire 66560-byte
buffer — above the claimed cap — with no line extracted; the function has no
destroy path at all (the repository's own test expects the connection to be
destroyed here). -/
theorem C4_buffer_uncapped :
    (handleIncomingData [] (List.replicate 66560 65)).1.length = 66560 ∧
    (handleIncomingData [] (List.replicate 66560 65)).2 = [] ∧
    64 * 1024 < 66560 := by
  have h : splitCRLF (List.replicate 66560 65) = ([], List.replicate 66560 65) :=
    splitCRLF_no_cr _ (fun b hb => by rw [List.eq_of_mem_replicate hb]; decide)
  have h2 : handleIncomingData [] (List.replicate 66560 65)
      = (List.replicate 66560 65, []) := by
    unfold handleIncomingData
    rw [List.nil_append, h]
  refine ⟨?_, ?_, by norm_num⟩
  · rw [h2]
    exact List.length_replicate 66560 65
  · rw [h2]

/-- C6 counterexample: the claim states that connected is emitted exactly
once. Processing the welcome line :server 001 nick :Welcome twice emits
connected twice — the snapshot keeps no registered flag, so the transition is
not once-only. -/
theorem C6_connected_emitted_twice :
    connectedEmissions
      [((":server 001 nick :Welcome").toList), ((":server 001 nick :Welcome").toList)] = 2 := by
  decide

/-- C6 amended: handleIrcLine emits connected exactly when (and each time)
the line matches the welcome pattern — an optional IRCv3 tag block, a ':'
source containing neither '!' nor '@', then the numeric 001; in particular
:server 001 nick :Welcome matches and the user-origin line
:nick!user@host PRIVMSG #c :has 001 in it does not. -/
theorem C6_amended_connected_iff_pattern :
    (∀ line : List Char,
      (handleIrcLine line).countP isConnectedEv = if rplWelcomeMatch line then 1 else 0) ∧
    rplWelcomeMatch ((":server 001 nick :Welcome").toList) = true ∧
    rplWelcomeMatch ((":nick!user@host PRIVMSG #c :has 001 in it").toList) = false := by
  refine ⟨fun line => ?_, by decide, by decide⟩
  unfold handleIrcLine
  by_cases hp : (("PING ").toList).isPrefixOf line = true
  · rw [if_pos hp, ping_not_welcome line hp]
    simp only [List.countP_cons, List.countP_nil, isConnectedEv, if_false, Bool.false_eq_true,
      cond_false]
  · rw [if_neg hp]
    by_cases hw : rplWelcomeMatch line = true
    · rw [if_pos hw, hw]
      simp only [List.countP_cons, List.countP_nil, isConnectedEv, if_true, Bool.false_eq_true,
        cond_false, cond_true]
      decide
    · rw [if_neg hw]
      have hw2 : rplWelcomeMatch line = false := by
        cases hval : rplWelcomeMatch line
        · rfl
        · exact absurd hval hw
      rw [hw2]
      simp only [List.countP_cons, List.countP_nil, isConnectedEv, if_false, Bool.false_eq_true,
        cond_false]

/-- C7 counterexample: the claim states that buildWebircCommand strips CR/LF
from every one of its four fields. It strips nothing: a password containing
CRLF reaches the produced WEBIRC line unchanged. -/
theorem C7_buildWebircCommand_not_stripped :
    noCRLF (buildWebircCommand
      { password := ("pw\r\nQUIT").toList, gateway := ("gw").toList,
        hostname := ("host").toList, ip := ("1.2.3.4").toList }) = false := by
  decide

/-- C7 amended: in the current registration path (handleSocketConnected)
every caller-supplied field — WEBIRC password, gateway name, hostname, IP,
server password, nick, username, realname — passes through stripCRLF, so no
registration line contains a CR or LF; the standalone buildWebircCommand of
webirc.ts, used by a superseded snapshot, interpolates its fields without
stripping. -/
theorem C7_amended_registration_lines_stripped (o : IrcConnectionOptions) :
    (registrationLines o).all noCRLF = true := by
  rcases o with ⟨nick, username, realname, password, webirc⟩
  cases webirc <;> cases password <;>
    simp only [registrationLines, List.all_append, List.all_cons, List.all_nil,
      noCRLF_append, noCRLF_stripCRLF, Bool.and_true, Bool.true_and, List.nil_append,
      List.append_nil] <;>
    decide

/-- C5 counterexample: the claim states that an over-limit message is
silently dropped with no error reply. With the tests' limit of 50 per window,
the 51st in-window message produces a gateway error event "Rate limit
exceeded" sent to the client — the drop is not silent. -/
theorem C5_rate_limit_error_reply_sent :
    (runMessages cfg50 freshConn (List.replicate 51 validRawMsg) 0).2
      = List.replicate 50 (SessionEffect.dispatched (ClientCommand.raw (("PRIVMSG #t :hi").toList)))
        ++ [SessionEffect.gatewayError rateLimitMsg] := by
  decide

/-- C5 amended: a message that exceeds the configured max-per-window after
the sliding-window update is dropped — it is not dispatched to any command
handler and the session is not disconnected — but a gateway error event
"Rate limit exceeded" is sent to the client; 60 in-window messages dispatch
exactly the first 50 and drop the last 10 (each with that error event). -/
theorem C5_amended_drop_with_error_reply (cfg : RateLimits) (s : ConnState)
    (m : InboundMessage) (now : Nat)
    (hlive : s.destroyed = false)
    (hover : (checkRateLimit cfg s.rate now).2 = false) :
    (onMessage cfg s m now).2 = [SessionEffect.gatewayError rateLimitMsg] ∧
    (onMessage cfg s m now).1.destroyed = false ∧
    (runMessages cfg50 freshConn (List.replicate 60 validRawMsg) 0).2
      = List.replicate 50 (SessionEffect.dispatched (ClientCommand.raw (("PRIVMSG #t :hi").toList)))
        ++ List.replicate 10 (SessionEffect.gatewayError rateLimitMsg) := by
  have he : onMessage cfg s m now
      = ({ s with rate := (checkRateLimit cfg s.rate now).1 },
         [SessionEffect.gatewayError rateLimitMsg]) := by
    unfold onMessage
    rw [if_neg (by simp [hlive])]
    simp only [hover, Bool.not_false, if_true]
  refine ⟨by rw [he], by rw [he]; exact hlive, by decide⟩

/-- C5 witness: the amended theorem applied at a session sitting at the
50-message limit inside the window. -/
theorem C5_amended_witness :
    ((⟨⟨50, 0⟩, false⟩ : ConnState)).destroyed = false ∧
    (checkRateLimit cfg50 (⟨50, 0⟩ : RateState) 0).2 = false ∧
    ((onMessage cfg50 ⟨⟨50, 0⟩, false⟩ InboundMessage.malformed 0).2
        = [SessionEffect.gatewayError rateLimitMsg] ∧
      (onMessage cfg50 ⟨⟨50, 0⟩, false⟩ InboundMessage.malformed 0).1.destroyed = false ∧
      (runMessages cfg50 freshConn (List.replicate 60 validRawMsg) 0).2
        = List.replicate 50
            (SessionEffect.dispatched (ClientCommand.raw (("PRIVMSG #t :hi").toList)))
          ++ List.replicate 10 (SessionEffect.gatewayError rateLimitMsg)) :=
  ⟨rfl, by decide,
    C5_amended_drop_with_error_reply cfg50 ⟨⟨50, 0⟩, false⟩ InboundMessage.malformed 0 rfl
      (by decide)⟩

/-- Mapping the latin1 encode function over in-range bytes is the identity. -/
theorem latin1_encode_map_id (l : List Nat) (hl : ∀ b ∈ l, b < 256) :
    l.map (fun cp => if cp < 256 then cp else 63) = l := by
  induction l with
  | nil => rfl
  | cons a t ih =>
    have ha : a < 256 := hl a (by simp)
    simp only [List.map_cons, if_pos ha, ih (fun x hx => hl x (by simp [hx]))]

/-- C9: encoding the latin1 decode of any byte sequence back to latin1
reproduces the bytes, and decoding under an unknown name falls back to UTF-8
decoding of the same bytes (the functions are total, so nothing raises). -/
theorem C9_latin1_roundtrip_and_fallback (bytes : List Nat) (h : ∀ b ∈ bytes, b < 256) :
    fromUtf8 (toUtf8 bytes (("latin1").toList)) (("latin1").toList) = bytes ∧
    toUtf8 bytes (("not-a-real-encoding").toList) = utf8DecodeBytes bytes := by
  have hlat : toUtf8 bytes (("latin1").toList) = bytes := by
    unfold toUtf8
    rw [if_neg (by decide)]
    unfold iconvDecode
    rw [if_pos (by decide)]
  rw [hlat]
  constructor
  · unfold fromUtf8
    rw [if_neg (by decide)]
    unfold iconvEncode
    rw [if_pos (by decide)]
    exact latin1_encode_map_id bytes h
  · rfl

/-- C9 witness: the round trip and the fallback at the bytes 48 E9 FF. -/
theorem C9_roundtrip_witness :
    (∀ b ∈ ([72, 233, 255] : List Nat), b < 256) ∧
    (fromUtf8 (toUtf8 ([72, 233, 255] : List Nat) (("latin1").toList)) (("latin1").toList)
        = [72, 233, 255] ∧
      toUtf8 ([72, 233, 255] : List Nat) (("not-a-real-encoding").toList)
        = utf8DecodeBytes ([72, 233, 255] : List Nat)) :=
  ⟨by decide, C9_latin1_roundtrip_and_fallback [72, 233, 255] (by decide)⟩

/-- C10: on a live session the rate state after onMessage is exactly the
checkRateLimit update — for a malformed message just as for a valid one, so
every message consumes one unit of the window budget before parsing or
validation (second conjunct gives the counter arithmetic); concretely, 10
garbage messages followed by 50 valid ones within one 50-message window leave
only 40 valid commands dispatched. -/
theorem C10_rate_budget_before_parse (cfg : RateLimits) (s : ConnState)
    (m : InboundMessage) (now : Nat) (hlive : s.destroyed = false) :
    (onMessage cfg s m now).1.rate = (checkRateLimit cfg s.rate now).1 ∧
    (onMessage cfg s m now).1.rate.messageCount
      = (if now - s.rate.messageWindowStart > cfg.messageRatePeriod then 0
         else s.rate.messageCount) + 1 ∧
    (runMessages cfg50 freshConn
        (List.replicate 10 InboundMessage.malformed ++ List.replicate 50 validRawMsg) 0).2.countP
        isDispatched = 40 := by
  have hfst : (onMessage cfg s m now).1
      = { s with rate := (checkRateLimit cfg s.rate now).1 } := by
    unfold onMessage
    rw [if_neg (by simp [hlive])]
    by_cases hok : (checkRateLimit cfg s.rate now).2 = true
    · cases m with
      | malformed => simp only [hok, Bool.not_true, if_false, Bool.false_eq_true]
      | envelope ev cmd =>
        by_cases hev : ev = sicClientEvent <;>
          simp only [hok, Bool.not_true, if_false, Bool.false_eq_true, hev, if_true, if_pos, if_neg]
    · have hok2 : (checkRateLimit cfg s.rate now).2 = false := by
        cases hval : (checkRateLimit cfg s.rate now).2
        · rfl
        · exact absurd hval hok
      simp only [hok2, Bool.not_false, if_true]
  refine ⟨by rw [hfst], ?_, by decide⟩
  rw [hfst]
  show (checkRateLimit cfg s.rate now).1.messageCount = _
  unfold checkRateLimit
  split_ifs <;> rfl

/-- C10 witness: the theorem applied to a fresh live session receiving a
malformed message. -/
theorem C10_rate_budget_witness :
    freshConn.destroyed = false ∧
    ((onMessage cfg50 freshConn InboundMessage.malformed 0).1.rate
        = (checkRateLimit cfg50 freshConn.rate 0).1 ∧
      (onMessage cfg50 freshConn InboundMessage.malformed 0).1.rate.messageCount
        = (if 0 - freshConn.rate.messageWindowStart > cfg50.messageRatePeriod then 0
           else freshConn.rate.messageCount) + 1 ∧
      (runMessages cfg50 freshConn
          (List.replicate 10 InboundMessage.malformed ++ List.replicate 50 validRawMsg) 0).2.countP
          isDispatched = 40) :=
  ⟨rfl, C10_rate_budget_before_parse cfg50 freshConn InboundMessage.malformed 0 rfl⟩

/-! ## C8: the per-IP counter invariant -/

/-- Reading the counter map after an increment at the same IP. -/
theorem getCount_onConnection_same (s : GState) (ip : List Char) :
    getCount (onConnection s ip) ip = getCount s ip + 1 := by
  simp [onConnection, getCount, mapSet]

/-- Reading the counter map after an increment at a different IP. -/
theorem getCount_onConnection_other (s : GState) (ip ip2 : List Char) (hne : ip2 ≠ ip) :
    getCount (onConnection s ip) ip2 = getCount s ip2 := by
  simp [onConnection, getCount, mapSet, hne]

/-- Admitting a session adds one live session for its IP and none for any
other IP. -/
theorem sessionsFor_onConnection (s : GState) (ip ip2 : List Char) :
    sessionsFor (onConnection s ip) ip2
      = sessionsFor s ip2 + (if ip = ip2 then 1 else 0) := by
  unfold sessionsFor onConnection
  rw [List.filter_append]
  by_cases hip : ip = ip2
  · simp [hip]
  · simp [hip]

/-- Removing the sessions keyed by the id of a member p from a registry whose
ids are pairwise distinct removes exactly p from any countP census. -/
theorem countP_filter_remove (l : List (Nat × List Char)) (p : Nat × List Char)
    (f : Nat × List Char → Bool) (hn : (l.map Prod.fst).Nodup) (hp : p ∈ l) :
    l.countP f
      = (l.filter (fun q => !(q.1 == p.1))).countP f + (if f p then 1 else 0) := by
  induction l with
  | nil => cases hp
  | cons a t ih =>
    have hn2 : (a.1 :: t.map Prod.fst).Nodup := by
      rw [List.map_cons] at hn
      exact hn
    have hhead : a.1 ∉ t.map Prod.fst := (List.nodup_cons.mp hn2).1
    have htail : (t.map Prod.fst).Nodup := (List.nodup_cons.mp hn2).2
    rcases List.mem_cons.mp hp with rfl | hpt
    · have hfilt : t.filter (fun q => !(q.1 == p.1)) = t := by
        apply List.filter_eq_self.mpr
        intro q hq
        have hne : q.1 ≠ p.1 := by
          intro he
          exact hhead (he ▸ List.mem_map_of_mem Prod.fst hq)
        simp [hne]
      rw [List.filter_cons, if_neg (by simp), hfilt, List.countP_cons]
    · have hne : a.1 ≠ p.1 := by
        intro he
        exact hhead (he ▸ List.mem_map_of_mem Prod.fst hpt)
      rw [List.filter_cons, if_pos (by simp [hne]), List.countP_cons, List.countP_cons,
        ih htail hpt]
      omega

/-- The invariant holds in the initial state. -/
theorem ginv_init (cfg : Config) : GInv cfg emptyGState := by
  refine ⟨?_, ?_, ?_, ?_⟩
  · intro p hp
    simp [emptyGState] at hp
  · simp [emptyGState]
  · intro ip
    simp [emptyGState, getCount, sessionsFor]
  · intro ip
    simp [emptyGState, getCount]

/-- Admission below the per-IP cap preserves the invariant. -/
theorem ginv_onConnection (cfg : Config) (s : GState) (ip : List Char) (h : GInv cfg s)
    (hcap : getCount s ip < cfg.maxConnectionsPerIp) : GInv cfg (onConnection s ip) := by
  obtain ⟨h1, h2, h3, h4⟩ := h
  refine ⟨?_, ?_, ?_, ?_⟩
  · intro p hp
    rcases List.mem_append.mp hp with hl | hr
    · exact Nat.lt_trans (h1 p hl) (Nat.lt_succ_self _)
    · have : p = (s.nextId, ip) := by simpa using hr
      rw [this]
      exact Nat.lt_succ_self _
  · show ((s.sessions ++ [(s.nextId, ip)]).map Prod.fst).Nodup
    rw [List.map_append, List.nodup_append]
    refine ⟨h2, by simp, ?_⟩
    intro a ha hb
    have hlt : a < s.nextId := by
      rcases List.mem_map.mp ha with ⟨q, hq, rfl⟩
      exact h1 q hq
    have : a = s.nextId := by simpa using hb
    omega
  · intro ip2
    by_cases hip : ip2 = ip
    · subst hip
      rw [getCount_onConnection_same, sessionsFor_onConnection, if_pos rfl, h3]
    · rw [getCount_onConnection_other s ip ip2 hip, sessionsFor_onConnection,
        if_neg (fun he => hip he.symm), h3]
      omega
  · intro ip2
    by_cases hip : ip2 = ip
    · subst hip
      rw [getCount_onConnection_same]
      omega
    · rw [getCount_onConnection_other s ip ip2 hip]
      exact h4 ip2

/-- The admission step of handleUpgrade preserves the invariant: rejections
leave the state unchanged and acceptance only happens below the cap. -/
theorem ginv_upgrade (cfg : Config) (s : GState) (ip : List Char) (h : GInv cfg s) :
    GInv cfg (handleUpgradeAdmission cfg s ip).2 := by
  unfold handleUpgradeAdmission
  by_cases hc : checkConnectionLimit cfg s ip = true
  · rw [if_neg (by simp [hc])]
    by_cases hg : cfg.maxClients ≤ s.sessions.length
    · rw [if_pos hg]
      exact h
    · rw [if_neg hg]
      exact ginv_onConnection cfg s ip h (by
        have := hc
        unfold checkConnectionLimit at this
        exact of_decide_eq_true this)
  · have hc2 : checkConnectionLimit cfg s ip = false := by
      cases hval : checkConnectionLimit cfg s ip
      · rfl
      · exact absurd hval hc
    rw [if_pos (by simp [hc2])]
    exact h

/-- Teardown preserves the invariant: the close handler removes exactly the
closed session and decrements (or deletes) exactly its IP's counter. -/
theorem ginv_onClose (cfg : Config) (s : GState) (id : Nat) (h : GInv cfg s) :
    GInv cfg (onClose s id) := by
  obtain ⟨h1, h2, h3, h4⟩ := h
  unfold onClose
  cases hf : s.sessions.find? (fun p => p.1 == id) with
  | none => exact ⟨h1, h2, h3, h4⟩
  | some p =>
    have hpmem : p ∈ s.sessions := List.mem_of_find?_eq_some hf
    have hpid : p.1 = id := by
      have := List.find?_some hf
      simpa using this
    have hcount : getCount s p.2 = sessionsFor s p.2 := h3 p.2
    have hpos : 1 ≤ sessionsFor s p.2 := by
      unfold sessionsFor
      exact List.length_pos_of_mem (List.mem_filter.mpr ⟨hpmem, by simp⟩)
    have hsome : s.counts p.2 = some (sessionsFor s p.2) := by
      cases hv : s.counts p.2 with
      | none =>
        exfalso
        unfold getCount at hcount
        rw [hv] at hcount
        simp at hcount
        omega
      | some c =>
        unfold getCount at hcount
        rw [hv] at hcount
        simp at hcount
        rw [hcount]
    have hnewc : (s.counts p.2).getD 1 - 1 = sessionsFor s p.2 - 1 := by
      rw [hsome]
      rfl
    have hlen : ∀ ip2 : List Char, sessionsFor s ip2
        = ((s.sessions.filter (fun q => !(q.1 == id))).filter
            (fun q => q.2 == ip2)).length
          + (if p.2 = ip2 then 1 else 0) := by
      intro ip2
      have hc := countP_filter_remove s.sessions p (fun q => q.2 == ip2) h2 hpmem
      rw [hpid] at hc
      rw [List.countP_eq_length_filter, List.countP_eq_length_filter] at hc
      unfold sessionsFor
      rw [hc]
      congr 1
      by_cases hip : p.2 = ip2
      · simp [hip]
      · simp [hip]
    refine ⟨?_, ?_, ?_, ?_⟩
    · intro q hq
      exact h1 q (List.mem_of_mem_filter hq)
    · exact h2.sublist ((List.filter_sublist _).map Prod.fst)
    · intro ip2
      show ((if (s.counts p.2).getD 1 - 1 = 0 then mapSet s.counts p.2 none
             else mapSet s.counts p.2 (some ((s.counts p.2).getD 1 - 1))) ip2).getD 0
            = ((s.sessions.filter (fun q => !(q.1 == id))).filter
                (fun q => q.2 == ip2)).length
      rw [hnewc]
      by_cases hip : ip2 = p.2
      · have h5 := hlen ip2
        rw [if_pos hip.symm] at h5
        rw [hip] at h5
        by_cases hz : sessionsFor s p.2 - 1 = 0
        · rw [if_pos hz]
          rw [show (mapSet s.counts p.2 none) ip2 = none from by simp [mapSet, hip]]
          rw [hip]
          simp only [Option.getD_none]
          omega
        · rw [if_neg hz]
          rw [show (mapSet s.counts p.2 (some (sessionsFor s p.2 - 1))) ip2
                = some (sessionsFor s p.2 - 1) from by simp [mapSet, hip]]
          rw [hip]
          simp only [Option.getD_some]
          omega
      · have h5 := hlen ip2
        rw [if_neg (fun he => hip he.symm)] at h5
        have hm : ∀ v, (mapSet s.counts p.2 v) ip2 = s.counts ip2 := by
          intro v
          simp [mapSet, hip]
        have h6 : (s.counts ip2).getD 0 = sessionsFor s ip2 := h3 ip2
        by_cases hz : sessionsFor s p.2 - 1 = 0
        · rw [if_pos hz, hm]
          omega
        · rw [if_neg hz, hm]
          omega
    · intro ip2
      show ((if (s.counts p.2).getD 1 - 1 = 0 then mapSet s.counts p.2 none
             else mapSet s.counts p.2 (some ((s.counts p.2).getD 1 - 1))) ip2).getD 0
            ≤ cfg.maxConnectionsPerIp
      rw [hnewc]
      by_cases hip : ip2 = p.2
      · by_cases hz : sessionsFor s p.2 - 1 = 0
        · rw [if_pos hz]
          rw [show (mapSet s.counts p.2 none) ip2 = none from by simp [mapSet, hip]]
          simp
        · rw [if_neg hz]
          rw [show (mapSet s.counts p.2 (some (sessionsFor s p.2 - 1))) ip2
                = some (sessionsFor s p.2 - 1) from by simp [mapSet, hip]]
          have hb := h4 p.2
          rw [hcount] at hb
          simp only [Option.getD_some]
          omega
      · have hm : ∀ v, (mapSet s.counts p.2 v) ip2 = s.counts ip2 := by
          intro v
          simp [mapSet, hip]
        by_cases hz : sessionsFor s p.2 - 1 = 0
        · rw [if_pos hz, hm]
          exact h4 ip2
        · rw [if_neg hz, hm]
          exact h4 ip2

/-- Every reachable gateway state satisfies the invariant. -/
theorem reachable_ginv (cfg : Config) (s : GState) (h : Reachable cfg s) : GInv cfg s := by
  induction h with
  | init => exact ginv_init cfg
  | upgrade ip h ih => exact ginv_upgrade cfg _ ip ih
  | close id h ih => exact ginv_onClose cfg _ id ih

/-- C8: in every reachable state the stored count of an IP equals the number
of live sessions with that client IP and never exceeds the configured per-IP
maximum; an upgrade from an IP at (or beyond) the maximum is rejected with
HTTP 429 and leaves the state unchanged, creating no session. -/
theorem C8_per_ip_invariant (cfg : Config) (s : GState) (h : Reachable cfg s)
    (ip : List Char) :
    getCount s ip = sessionsFor s ip ∧
    getCount s ip ≤ cfg.maxConnectionsPerIp ∧
    (cfg.maxConnectionsPerIp ≤ getCount s ip →
      handleUpgradeAdmission cfg s ip = (AdmitResult.rejected429, s)) := by
  obtain ⟨h1, h2, h3, h4⟩ := reachable_ginv cfg s h
  refine ⟨h3 ip, h4 ip, fun hm => ?_⟩
  unfold handleUpgradeAdmission
  have hc : checkConnectionLimit cfg s ip = false := by
    unfold checkConnectionLimit
    simp
    omega
  rw [if_pos (by simp [hc])]

/-- C8 witness: the invariant instantiated at the state reached by a single
admission from 1.2.3.4 under the default configuration. -/
theorem C8_per_ip_invariant_witness :
    getCount (handleUpgradeAdmission DEFAULT_CONFIG emptyGState (("1.2.3.4").toList)).2
        (("1.2.3.4").toList)
      = sessionsFor (handleUpgradeAdmission DEFAULT_CONFIG emptyGState (("1.2.3.4").toList)).2
          (("1.2.3.4").toList) ∧
    getCount (handleUpgradeAdmission DEFAULT_CONFIG emptyGState (("1.2.3.4").toList)).2
        (("1.2.3.4").toList)
      ≤ DEFAULT_CONFIG.maxConnectionsPerIp ∧
    (DEFAULT_CONFIG.maxConnectionsPerIp
        ≤ getCount (handleUpgradeAdmission DEFAULT_CONFIG emptyGState (("1.2.3.4").toList)).2
            (("1.2.3.4").toList) →
      handleUpgradeAdmission DEFAULT_CONFIG
          (handleUpgradeAdmission DEFAULT_CONFIG emptyGState (("1.2.3.4").toList)).2
          (("1.2.3.4").toList)
        = (AdmitResult.rejected429,
           (handleUpgradeAdmission DEFAULT_CONFIG emptyGState (("1.2.3.4").toList)).2)) :=
  C8_per_ip_invariant DEFAULT_CONFIG
    (handleUpgradeAdmission DEFAULT_CONFIG emptyGState (("1.2.3.4").toList)).2
    (Reachable.upgrade (("1.2.3.4").toList) Reachable.init) (("1.2.3.4").toList)

end SicGateway
